import Mathlib

/-!
Shallow embedding of the batch image annotator
`src/anthropic/kapok-tree-image-tagger-anthropic-v2.py` (the resume-capable
v2 script) and of the legacy text-section parser in
`src/kapok-tree-tagger-anthropic.py`, together with theorems settling the
behavioural claims about them.

Python strings are modelled as `List Char`; Python exceptions as `Except` /
explicit error constructors; the external pieces (`json.loads`, the network
call made by the Anthropic SDK) are abstract parameters, since they are not
code of this repository.
-/

set_option maxRecDepth 10000

abbrev Str := List Char

/-- Python whitespace test for `str.strip()` (ASCII whitespace). -/
def isPySpace (c : Char) : Bool :=
  c = ' ' || c = '\t' || c = '\n' || c = '\r' || c = '\x0b' || c = '\x0c'

/-- Python `str.strip()`: drop leading and trailing whitespace. -/
def pyStrip (s : Str) : Str :=
  ((s.dropWhile isPySpace).reverse.dropWhile isPySpace).reverse

/-- Python `s.split("\x7bnewline\x7d", 1)`: split at the first newline.
`none` when the string has no newline (indexing `[1]` then raises
`IndexError` in the source). -/
def splitNl1 : Str → Option (Str × Str)
  | [] => none
  | c :: cs =>
    if c = '\n' then some ([], cs)
    else
      match splitNl1 cs with
      | none => none
      | some (a, b) => some (c :: a, b)

/-- Scan from the left; at the first position where `pat` is a prefix,
return what follows that occurrence of `pat`. -/
def dropThroughFirst (pat : Str) : Str → Option Str
  | [] => if pat.isEmpty then some [] else none
  | c :: cs =>
    if pat.isPrefixOf (c :: cs) then some ((c :: cs).drop pat.length)
    else dropThroughFirst pat cs

/-- Python `s.rsplit(pat, 1)[0]`: everything before the rightmost occurrence
of `pat`, or the whole string when `pat` does not occur. -/
def pyRsplitBefore (pat s : Str) : Str :=
  match dropThroughFirst pat.reverse s.reverse with
  | some rest => rest.reverse
  | none => s

/-- Python `pat in s`: substring containment. -/
def substrB (pat : Str) : Str → Bool
  | [] => pat.isEmpty
  | c :: cs => pat.isPrefixOf (c :: cs) || substrB pat cs

/-- Python `str.lower()` (ASCII). -/
def pyLower (s : Str) : Str := s.map Char.toLower

/-- Python `pathlib.Path.suffix`: the extension from the last dot (dot
included), empty when there is no dot, when the dot is the first
character of the name, or when it is the last. -/
def pySuffix (cs : Str) : Str :=
  let rev := cs.reverse
  let after := rev.takeWhile (fun c => c ≠ '.')
  if after.length = rev.length then []
  else if after.isEmpty then []
  else if (rev.drop (after.length + 1)).isEmpty then []
  else '.' :: after.reverse

/-- `SUPPORTED_EXTENSIONS` from the v2 script (line 51). -/
def SUPPORTED_EXTENSIONS : List Str :=
  [".jpg".data, ".jpeg".data, ".png".data, ".gif".data, ".webp".data]

/-- `get_orientation` (v2 script lines 88-92): classify pixel dimensions,
`"landscape"` when `width > height`, else `"portrait"`. The PIL decoding
step is factored out (see `runLoop`); this is the pure classification. -/
def get_orientation (width height : Nat) : Str :=
  if width > height then "landscape".data else "portrait".data

/-- JSON values, as produced by Python `json.loads`. -/
inductive PyJson where
  | obj : List (Str × PyJson) → PyJson
  | arr : List PyJson → PyJson
  | str : Str → PyJson
  | num : Int → PyJson
  | bool : Bool → PyJson
  | null : PyJson

/-- A Python dict with string keys (insertion-ordered association list). -/
abbrev PyDict := List (Str × PyJson)

/-- Python dict lookup. `json.loads` keeps the last of duplicate keys, so
the lookup takes the rightmost binding. -/
def pyLookup (d : PyDict) (k : Str) : Option PyJson :=
  (d.reverse.find? (fun p => p.1 == k)).map Prod.snd

/-- Python `dict.get(k, default)`. -/
def pyGet (d : PyDict) (k : Str) (dflt : PyJson) : PyJson :=
  (pyLookup d k).getD dflt

def kShort : Str := "short_description".data

def kLong : Str := "long_description".data

def kTags : Str := "tags".data

/-- Lines 137-143 of the v2 script: strip the response text, then remove a
surrounding markdown code fence when the text starts with three backticks
(drop the first line, drop everything from the last fence on, strip again).
When the fenced text has no newline, `split` yields a single piece and the
`[1]` index raises `IndexError`; the error carries the interpreter text. -/
def extractPayload (raw : Str) : Except Str Str :=
  let t := pyStrip raw
  if ("```".data).isPrefixOf t then
    match splitNl1 t with
    | none => .error "list index out of range".data
    | some (_, rest) => .ok (pyStrip (pyRsplitBefore "```".data rest))
  else .ok t

/-- Exceptions the body of the `try` in `analyze_image` can raise after the
API call returned: a `json.JSONDecodeError` (caught by its own handler) or
any other exception (caught by the generic handler), each carrying `str(e)`. -/
inductive PyExn where
  | jsonErr : Str → PyExn
  | otherErr : Str → PyExn

/-- Lines 137-152 of the v2 script: one successful API response being turned
into the result dict. `jload` stands for `json.loads` (Python stdlib, not
repository code): it returns the parsed value or the decode-error text.
When the parsed value is not a dict, `.get` raises `AttributeError`
(its text has no digits, so it is not retryable). -/
def parseAttempt (jload : Str → Except Str PyJson) (raw : Str) :
    Except PyExn PyDict :=
  match extractPayload raw with
  | .error m => .error (.otherErr m)
  | .ok payload =>
    match jload payload with
    | .error e => .error (.jsonErr e)
    | .ok (.obj fields) =>
      .ok [(kShort, pyGet fields kShort (.str [])),
           (kLong, pyGet fields kLong (.str [])),
           (kTags, pyGet fields kTags (.str []))]
    | .ok _ => .error (.otherErr "object has no attribute get".data)

/-- Line 165 of the v2 script: an exception message is retryable when it
contains one of the status-code substrings. -/
def retryable (m : Str) : Bool :=
  substrB "429".data m || substrB "500".data m || substrB "502".data m ||
  substrB "503".data m || substrB "529".data m

/-- `_error_result` (v2 script lines 179-185): the sentinel error dict. -/
def error_result (detail : Str) : PyDict :=
  [(kShort, .str "Error analyzing image".data),
   (kLong, .str ("API error: ".data ++ detail)),
   (kTags, .str "error, failed_analysis".data)]

def MAX_RETRIES : Nat := 3

/-- What the external API does on one attempt: return response text, or
raise an exception with the given `str(e)`. -/
inductive Outcome where
  | apiOk : Str → Outcome
  | apiExn : Str → Outcome

/-- Observable events of `analyze_image`: an API call on a given attempt
number, or a `time.sleep` of the given number of seconds. -/
inductive Event where
  | call : Nat → Event
  | slept : ℚ → Event

/-- The branch shared by the two exception paths of `analyze_image`
(lines 162-174): retryable messages back off and continue while attempts
remain; everything else returns the sentinel with the message truncated
to 200 characters. `next` is the remainder of the loop. -/
def exnStep (delay : ℚ) (a : Nat) (m : Str) (next : PyDict × List Event) :
    PyDict × List Event :=
  if retryable m then
    if a < MAX_RETRIES then
      (next.1, .call a :: .slept ((2 : ℚ) ^ a * delay) :: next.2)
    else (error_result (m.take 200), [.call a])
  else (error_result (m.take 200), [.call a])

/-- The retry loop of `analyze_image` (v2 script lines 112-176).
`fuel` counts the loop iterations left (`range(1, MAX_RETRIES + 1)`),
`a` is the current attempt number; `analyze_image` starts at fuel
`MAX_RETRIES`, attempt 1, so `fuel = MAX_RETRIES + 1 - a` throughout.
Falling off the loop returns the final sentinel (line 176). -/
def analyzeAux (jload : Str → Except Str PyJson) (delay : ℚ)
    (out : Nat → Outcome) : Nat → Nat → PyDict × List Event
  | 0, _ => (error_result "Max retries exceeded".data, [])
  | fuel + 1, a =>
    match out a with
    | .apiOk raw =>
      match parseAttempt jload raw with
      | .ok d => (d, [.call a])
      | .error (.jsonErr e) =>
        if a < MAX_RETRIES then
          let next := analyzeAux jload delay out fuel (a + 1)
          (next.1, .call a :: .slept ((2 : ℚ) ^ a) :: next.2)
        else (error_result ("JSON parse error: ".data ++ e), [.call a])
      | .error (.otherErr m) =>
        exnStep delay a m (analyzeAux jload delay out fuel (a + 1))
    | .apiExn m => exnStep delay a m (analyzeAux jload delay out fuel (a + 1))

/-- `analyze_image` (v2 script lines 104-176), with `json.loads`, the
configured inter-request delay and the per-attempt API behaviour as
parameters. Returns the result dict and the trace of calls and sleeps. -/
def analyze_image (jload : Str → Except Str PyJson) (delay : ℚ)
    (out : Nat → Outcome) : PyDict × List Event :=
  analyzeAux jload delay out MAX_RETRIES 1

/-- The attempt numbers of the API calls in a trace. -/
def callsOf (tr : List Event) : List Nat :=
  tr.filterMap (fun e => match e with | .call n => some n | _ => none)

/-- The sleep durations in a trace, in seconds. -/
def sleepsOf (tr : List Event) : List ℚ :=
  tr.filterMap (fun e => match e with | .slept q => some q | _ => none)

/-- A directory entry as `process_images` sees it: a filename and, when PIL
can decode the file, its pixel dimensions (`none` models a file whose
`Image.open` raises — the content is undecodable). -/
structure FileEnt where
  name : Str
  img : Option (Nat × Nat)
deriving DecidableEq

/-- Lexicographic order on strings, as Python compares them. -/
def lexLe : Str → Str → Bool
  | [], _ => true
  | _ :: _, [] => false
  | a :: as, b :: bs => if a < b then true else if a = b then lexLe as bs else false

/-- Order on directory entries used by `sorted(...)`: within one directory,
comparing `Path` objects compares the filenames. -/
def nameLe (a b : FileEnt) : Prop := lexLe a.name b.name = true

instance : DecidableRel nameLe := fun a b => Bool.decEq (lexLe a.name b.name) true

instance : IsTotal FileEnt nameLe where
  total a b := by
    have key : ∀ s t : Str, lexLe s t = true ∨ lexLe t s = true := by
      intro s
      induction s with
      | nil => intro t; left; rfl
      | cons x xs ih =>
        intro t
        rcases t with _ | ⟨y, ys⟩
        · right; rfl
        · rcases lt_trichotomy x y with hxy | hxy | hxy
          · left; simp [lexLe, hxy]
          · subst hxy
            rcases ih ys with h | h
            · left; simp [lexLe, h]
            · right; simp [lexLe, h]
          · right; simp [lexLe, hxy]
    exact key a.name b.name

instance : IsTrans FileEnt nameLe where
  trans a b c hab hbc := by
    have key : ∀ s t u : Str, lexLe s t = true → lexLe t u = true →
        lexLe s u = true := by
      intro s
      induction s with
      | nil => intro t u _ _; rfl
      | cons x xs ih =>
        intro t u h1 h2
        rcases t with _ | ⟨y, ys⟩
        · exact absurd h1 (by simp [lexLe])
        · rcases u with _ | ⟨z, zs⟩
          · exact absurd h2 (by simp [lexLe])
          · by_cases hxy : x < y
            · by_cases hyz : y < z
              · simp [lexLe, lt_trans hxy hyz]
              · have hy : y = z := by
                  by_contra hne
                  simp [lexLe, hyz, hne] at h2
                subst hy
                simp [lexLe, hxy]
            · have hx : x = y := by
                by_contra hne
                simp [lexLe, hxy, hne] at h1
              subst hx
              by_cases hyz : x < z
              · simp [lexLe, hyz]
              · have hz : x = z := by
                  by_contra hne
                  simp [lexLe, hyz, hne] at h2
                subst hz
                simp only [lexLe, if_neg (lt_irrefl x), if_pos rfl]
                simp [lexLe, hyz, lt_irrefl] at h1 h2
                exact ih ys zs h1 h2
    exact key a.name b.name c.name hab hbc

/-- Lines 208-211 of the v2 script: keep the entries whose lower-cased
suffix is a supported extension, sorted for predictable order (Python
`sorted` is a stable sort; a stable sort is modelled by insertion sort,
which produces the same sequence). -/
def scanImages (entries : List FileEnt) : List FileEnt :=
  List.insertionSort nameLe
    (entries.filter
      (fun f => SUPPORTED_EXTENSIONS.contains (pyLower (pySuffix f.name))))

/-- One CSV data row as written at lines 250-256. -/
structure RowData where
  filename : Str
  short : PyJson
  long : PyJson
  tags : PyJson
  orient : Str

/-- A row of the output CSV: the header row or a data row. -/
inductive LRow where
  | header : LRow
  | data : RowData → LRow

/-- The output store: `none` when the file does not exist, otherwise its
rows (a zero-byte file is `some []`). -/
abbrev Store := Option (List LRow)

/-- `load_existing_results` (v2 script lines 95-101): absent file means no
prior records; otherwise `csv.DictReader` consumes the first row as the
field names and yields `row["filename"]` of each later row, keeping the
truthy (non-empty) ones. A body row that is literally the header line
yields the value `"filename"`. -/
def load_existing_results (store : Store) : List Str :=
  match store with
  | none => []
  | some [] => []
  | some (_ :: rest) =>
    rest.filterMap (fun r =>
      match r with
      | .header => some "filename".data
      | .data rd => if rd.filename.isEmpty then none else some rd.filename)

/-- Lines 220-221 of the v2 script: the resume filter — keep the scanned
files whose name is not already a key of the ledger. -/
def toProcessList (entries : List FileEnt) (store : Store) : List FileEnt :=
  (scanImages entries).filter
    (fun f => !((load_existing_results store).contains f.name))

/-- Reading a field of the analysis dict at lines 250-256
(`analysis["short_description"]` etc.). Every dict `analyze_image`
returns has all three keys, so the `KeyError` case cannot occur; it is
modelled with a `null` default. -/
def dictItem (d : PyDict) (k : Str) : PyJson :=
  (pyLookup d k).getD .null

/-- The per-file loop of `process_images` (v2 script lines 246-262): for
each file, classify orientation, analyze, append a row, flush. A file PIL
cannot decode makes `get_orientation` raise; nothing catches that, so the
loop stops there — the rows written so far, the API calls made so far, and
whether the run aborted are returned. `out` gives each file's per-attempt
API behaviour. -/
def runLoop (jload : Str → Except Str PyJson) (delay : ℚ)
    (out : FileEnt → Nat → Outcome) :
    List FileEnt → List LRow × Nat × Bool
  | [] => ([], 0, false)
  | f :: rest =>
    match f.img with
    | none => ([], 0, true)
    | some (w, h) =>
      let analysis := analyze_image jload delay (out f)
      let row : LRow := .data
        { filename := f.name
          short := dictItem analysis.1 kShort
          long := dictItem analysis.1 kLong
          tags := dictItem analysis.1 kTags
          orient := get_orientation w h }
      let next := runLoop jload delay out rest
      (row :: next.1, (callsOf analysis.2).length + next.2.1, next.2.2)

/-- How a run of `process_images` ends: the early exits at lines 203-229
(missing directory, no supported files, nothing left after the resume
filter), an abort by an uncaught per-file exception, or completion. -/
inductive RunOutcome where
  | dirNotFound : RunOutcome
  | noImages : RunOutcome
  | nothingNew : RunOutcome
  | aborted : RunOutcome
  | completed : RunOutcome
deriving DecidableEq

/-- Result of one run: how it ended, the output store afterwards, and how
many API calls it made. -/
structure RunResult where
  outcome : RunOutcome
  store : Store
  apiCalls : Nat

/-- `process_images` (v2 script lines 192-265). The directory is `none`
when the path does not exist, else its entries. The store is opened in
append mode only after all early exits; the header is written exactly when
the file is absent or has zero bytes (line 238). -/
def process_images (jload : Str → Except Str PyJson) (delay : ℚ)
    (out : FileEnt → Nat → Outcome) (dir : Option (List FileEnt))
    (store : Store) : RunResult :=
  match dir with
  | none => ⟨.dirNotFound, store, 0⟩
  | some entries =>
    if (scanImages entries).isEmpty then ⟨.noImages, store, 0⟩
    else
      let todo := toProcessList entries store
      if todo.isEmpty then ⟨.nothingNew, store, 0⟩
      else
        let prior := store.getD []
        let base := if prior.isEmpty then [LRow.header] else prior
        let res := runLoop jload delay out todo
        ⟨if res.2.2 then .aborted else .completed, some (base ++ res.1), res.2.1⟩

/-- Number of header rows in a list of CSV rows. -/
def countHeader (rows : List LRow) : Nat :=
  rows.countP (fun r => match r with | .header => true | _ => false)

/-- The filenames of the data rows, in order. -/
def rowFilenames (rows : List LRow) : List Str :=
  rows.filterMap (fun r =>
    match r with
    | .data rd => some rd.filename
    | .header => none)

/-- Stores producible by this program: starting from a non-existent output
file, each run replaces the store with what `process_images` leaves. -/
inductive ReachableStore : Store → Prop where
  | init : ReachableStore none
  | step : ∀ (jload : Str → Except Str PyJson) (delay : ℚ)
      (out : FileEnt → Nat → Outcome) (dir : Option (List FileEnt))
      (s : Store), ReachableStore s →
      ReachableStore (process_images jload delay out dir s).store

/-- Python `s.split("\x7bnewline\x7d")` without a count: the pieces between
newlines (an empty string splits to one empty piece). -/
def pySplitNl : Str → List Str
  | [] => [[]]
  | c :: cs =>
    if c = '\n' then [] :: pySplitNl cs
    else
      match pySplitNl cs with
      | [] => [[c]]
      | l :: ls => (c :: l) :: ls

/-- Python `line.split(":", 1)[1]`: the part after the first colon
(callers guard on the colon being present). -/
def afterColon (line : Str) : Str :=
  (dropThroughFirst [':'] line).getD []

/-- Line 95 of the legacy script: a line opens the short-description
section. -/
def mark1 (line : Str) : Bool :=
  substrB "1.".data (line.take 3) || substrB "Short description:".data line

/-- Line 98 of the legacy script: a line opens the long-description
section. -/
def mark2 (line : Str) : Bool :=
  substrB "2.".data (line.take 3) || substrB "Detailed description:".data line

/-- Line 101 of the legacy script: a line opens the tags section. -/
def mark3 (line : Str) : Bool :=
  substrB "3.".data (line.take 3) || substrB "Tags:".data line

/-- A line that opens no section. -/
def noMarker (line : Str) : Bool := !(mark1 line || mark2 line || mark3 line)

/-- The field value taken from a marker line: after the first colon when
the line has one, else the line from its third character on, stripped. -/
def markerVal (line : Str) : Str :=
  if substrB [':'] line then pyStrip (afterColon line) else pyStrip (line.drop 2)

/-- Parser state of the legacy script loop (lines 88-111): the open
section number and the three fields. -/
structure SectState where
  sect : Nat
  short : Str
  long : Str
  tags : Str
deriving DecidableEq

/-- One iteration of the legacy parsing loop (lines 94-111): marker lines
open a section and seed its field; otherwise section 1 and 3 take a line
only while their field is still empty, and section 2 appends every line
to a non-empty field with a space. -/
def sectStep (st : SectState) (line : Str) : SectState :=
  if mark1 line then { st with sect := 1, short := markerVal line }
  else if mark2 line then { st with sect := 2, long := markerVal line }
  else if mark3 line then { st with sect := 3, tags := markerVal line }
  else if st.sect = 1 && st.short.isEmpty then { st with short := pyStrip line }
  else if st.sect = 2 && st.long.isEmpty then { st with long := pyStrip line }
  else if st.sect = 2 && !st.long.isEmpty then
    { st with long := st.long ++ ' ' :: pyStrip line }
  else if st.sect = 3 && st.tags.isEmpty then { st with tags := pyStrip line }
  else st

/-- The legacy loop over all lines, starting with no section open. -/
def sectParse (lines : List Str) : SectState :=
  lines.foldl sectStep ⟨0, [], [], []⟩

/-- `analyze_image_claude` response handling (legacy script lines 85-117):
strip the content, split into lines, run the section loop, return the
dict of the three fields. -/
def analyze_image_claude (content : Str) : PyDict :=
  let st := sectParse (pySplitNl (pyStrip content))
  [(kShort, .str st.short), (kLong, .str st.long), (kTags, .str st.tags)]

/-- Claim C9 formalized as stated: after a marker line, every continuation
line (up to the next marker) ends up accumulated in the opened section
field — its stripped text occurs in the final field. -/
def c9Claim : Prop :=
  ∀ conts : List Str, (∀ l ∈ conts, noMarker l = true) →
    (∀ l ∈ conts,
      substrB (pyStrip l) (sectParse ("1.".data :: conts)).short = true) ∧
    (∀ l ∈ conts,
      substrB (pyStrip l) (sectParse ("2.".data :: conts)).long = true) ∧
    (∀ l ∈ conts,
      substrB (pyStrip l) (sectParse ("3.".data :: conts)).tags = true)

/-- Field length of the long description of an analysis dict (used to
state boundedness of the error detail). -/
def longLenOf (d : PyDict) : Nat :=
  match pyLookup d kLong with
  | some (.str s) => s.length
  | _ => 0

/-- The backtick character (named so proofs can take the fence string
apart without a character literal). -/
def btChar : Char := "`".data.headI

/-- Claim C6: for every image with pixel width w and height h, the classifier
returns "landscape" exactly when w > h and "portrait" otherwise, including the
square tie case w = h; in particular 800x600 yields landscape, 600x800 yields
portrait, and 500x500 yields portrait. -/
theorem orientation_classification :
    (∀ w h : Nat, (get_orientation w h = "landscape".data ↔ h < w) ∧
      (get_orientation w h = "portrait".data ↔ w ≤ h)) ∧
    get_orientation 800 600 = "landscape".data ∧
    get_orientation 600 800 = "portrait".data ∧
    get_orientation 500 500 = "portrait".data := by
  refine ⟨fun w h => ?_, by decide, by decide, by decide⟩
  constructor
  · constructor
    · intro hEq
      by_contra hlt
      simp only [get_orientation, gt_iff_lt, if_neg hlt] at hEq
      exact absurd hEq (by decide)
    · intro hlt
      simp [get_orientation, hlt]
  · constructor
    · intro hEq
      by_contra hle
      push_neg at hle
      simp only [get_orientation, gt_iff_lt, if_pos hle] at hEq
      exact absurd hEq (by decide)
    · intro hle
      have : ¬ h < w := not_lt.mpr hle
      simp [get_orientation, this]

/-! Step lemmas for the retry loop. -/

theorem callsOf_call (n : Nat) (tr : List Event) :
    callsOf (.call n :: tr) = n :: callsOf tr := rfl

theorem callsOf_slept (q : ℚ) (tr : List Event) :
    callsOf (.slept q :: tr) = callsOf tr := rfl

theorem analyzeAux_ok_success {jload : Str → Except Str PyJson} {delay : ℚ}
    {out : Nat → Outcome} {fuel a : Nat} {raw : Str} {d : PyDict}
    (h : out a = .apiOk raw) (hp : parseAttempt jload raw = .ok d) :
    analyzeAux jload delay out (fuel + 1) a = (d, [.call a]) := by
  simp [analyzeAux, h, hp]

theorem analyzeAux_parse_retry {jload : Str → Except Str PyJson} {delay : ℚ}
    {out : Nat → Outcome} {fuel a : Nat} {raw e : Str}
    (h : out a = .apiOk raw) (hp : parseAttempt jload raw = .error (.jsonErr e))
    (ha : a < MAX_RETRIES) :
    analyzeAux jload delay out (fuel + 1) a =
      ((analyzeAux jload delay out fuel (a + 1)).1,
       .call a :: .slept ((2 : ℚ) ^ a) ::
         (analyzeAux jload delay out fuel (a + 1)).2) := by
  simp [analyzeAux, h, hp, ha]

theorem analyzeAux_parse_last {jload : Str → Except Str PyJson} {delay : ℚ}
    {out : Nat → Outcome} {fuel a : Nat} {raw e : Str}
    (h : out a = .apiOk raw) (hp : parseAttempt jload raw = .error (.jsonErr e))
    (ha : ¬ a < MAX_RETRIES) :
    analyzeAux jload delay out (fuel + 1) a =
      (error_result ("JSON parse error: ".data ++ e), [.call a]) := by
  simp [analyzeAux, h, hp, ha]

theorem analyzeAux_exn_retry {jload : Str → Except Str PyJson} {delay : ℚ}
    {out : Nat → Outcome} {fuel a : Nat} {m : Str}
    (h : out a = .apiExn m) (hm : retryable m = true) (ha : a < MAX_RETRIES) :
    analyzeAux jload delay out (fuel + 1) a =
      ((analyzeAux jload delay out fuel (a + 1)).1,
       .call a :: .slept ((2 : ℚ) ^ a * delay) ::
         (analyzeAux jload delay out fuel (a + 1)).2) := by
  simp [analyzeAux, exnStep, h, hm, ha]

theorem analyzeAux_exn_stop {jload : Str → Except Str PyJson} {delay : ℚ}
    {out : Nat → Outcome} {fuel a : Nat} {m : Str}
    (h : out a = .apiExn m)
    (hstop : retryable m = false ∨ ¬ a < MAX_RETRIES) :
    analyzeAux jload delay out (fuel + 1) a =
      (error_result (m.take 200), [.call a]) := by
  rcases hstop with hm | ha
  · simp [analyzeAux, exnStep, h, hm]
  · rcases hr : retryable m with _ | _ <;> simp [analyzeAux, exnStep, h, hr, ha]

theorem callsOf_analyzeAux_le {jload : Str → Except Str PyJson} {delay : ℚ}
    {out : Nat → Outcome} :
    ∀ (fuel a : Nat),
      (callsOf (analyzeAux jload delay out fuel a).2).length ≤ fuel := by
  intro fuel
  induction fuel with
  | zero => intro a; simp [analyzeAux, callsOf]
  | succ n ih =>
    intro a
    rcases h : out a with raw | m
    · rcases hp : parseAttempt jload raw with e | d
      · rcases e with e | m
        · by_cases ha : a < MAX_RETRIES
          · rw [analyzeAux_parse_retry h hp ha]
            simp only [callsOf_call, callsOf_slept, List.length_cons]
            exact Nat.succ_le_succ (ih (a + 1))
          · rw [analyzeAux_parse_last h hp ha]
            simp [callsOf]
        · by_cases hm : retryable m
          · by_cases ha : a < MAX_RETRIES
            · simp only [analyzeAux, h, hp, exnStep, hm, ha, if_true]
              simp only [callsOf_call, callsOf_slept, List.length_cons]
              exact Nat.succ_le_succ (ih (a + 1))
            · simp only [analyzeAux, h, hp, exnStep, hm, if_true, ha, if_false]
              simp [callsOf]
          · simp only [analyzeAux, h, hp, exnStep, Bool.not_eq_true] at *
            simp [exnStep, hm, callsOf, analyzeAux, h, hp]
      · rw [analyzeAux_ok_success h hp]
        simp [callsOf]
    · by_cases hm : retryable m
      · by_cases ha : a < MAX_RETRIES
        · rw [analyzeAux_exn_retry h hm ha]
          simp only [callsOf_call, callsOf_slept, List.length_cons]
          exact Nat.succ_le_succ (ih (a + 1))
        · rw [analyzeAux_exn_stop h (Or.inr ha)]
          simp [callsOf]
      · rw [analyzeAux_exn_stop h (Or.inl (by simpa using hm))]
        simp [callsOf]

/-- Claim C3: for every input image, analyze_image makes at most 3 attempts;
an attempt is retried exactly when it raises a JSON-parse failure or an API
error carrying status 429, 500, 502, 503 or 529 (in the embedding, as in the
source, an error carries a status when its text contains that code); any
other exception short-circuits immediately to the sentinel error record
without consuming the remaining attempts; the wait before a retry is
2^attempt seconds after a parse failure and 2^attempt times the configured
inter-request delay after a retryable API error. -/
theorem retry_policy (jload : Str → Except Str PyJson) (delay : ℚ)
    (out : Nat → Outcome) :
    ((callsOf (analyze_image jload delay out).2).length ≤ 3) ∧
    (∀ r1 r2 r3 e1 e2 d,
      out 1 = .apiOk r1 → parseAttempt jload r1 = .error (.jsonErr e1) →
      out 2 = .apiOk r2 → parseAttempt jload r2 = .error (.jsonErr e2) →
      out 3 = .apiOk r3 → parseAttempt jload r3 = .ok d →
      analyze_image jload delay out =
        (d, [.call 1, .slept ((2 : ℚ) ^ 1), .call 2, .slept ((2 : ℚ) ^ 2),
             .call 3])) ∧
    (∀ m1 m2 r3 d,
      out 1 = .apiExn m1 → retryable m1 = true →
      out 2 = .apiExn m2 → retryable m2 = true →
      out 3 = .apiOk r3 → parseAttempt jload r3 = .ok d →
      analyze_image jload delay out =
        (d, [.call 1, .slept ((2 : ℚ) ^ 1 * delay), .call 2,
             .slept ((2 : ℚ) ^ 2 * delay), .call 3])) ∧
    (∀ m, out 1 = .apiExn m → retryable m = false →
      analyze_image jload delay out = (error_result (m.take 200), [.call 1])) ∧
    (∀ r1 e1 m,
      out 1 = .apiOk r1 → parseAttempt jload r1 = .error (.jsonErr e1) →
      out 2 = .apiExn m → retryable m = false →
      analyze_image jload delay out =
        (error_result (m.take 200), [.call 1, .slept ((2 : ℚ) ^ 1), .call 2])) ∧
    (∀ m1 m2 m3,
      out 1 = .apiExn m1 → retryable m1 = true →
      out 2 = .apiExn m2 → retryable m2 = true →
      out 3 = .apiExn m3 → retryable m3 = true →
      analyze_image jload delay out =
        (error_result (m3.take 200),
         [.call 1, .slept ((2 : ℚ) ^ 1 * delay), .call 2,
          .slept ((2 : ℚ) ^ 2 * delay), .call 3])) := by
  refine ⟨callsOf_analyzeAux_le MAX_RETRIES 1, ?_, ?_, ?_, ?_, ?_⟩
  · intro r1 r2 r3 e1 e2 d h1 hp1 h2 hp2 h3 hp3
    have s1 : analyze_image jload delay out =
        ((analyzeAux jload delay out 2 2).1,
         .call 1 :: .slept ((2 : ℚ) ^ 1) :: (analyzeAux jload delay out 2 2).2) :=
      analyzeAux_parse_retry h1 hp1 (by decide)
    have s2 : analyzeAux jload delay out 2 2 =
        ((analyzeAux jload delay out 1 3).1,
         .call 2 :: .slept ((2 : ℚ) ^ 2) :: (analyzeAux jload delay out 1 3).2) :=
      analyzeAux_parse_retry h2 hp2 (by decide)
    have s3 : analyzeAux jload delay out 1 3 = (d, [.call 3]) :=
      analyzeAux_ok_success h3 hp3
    rw [s1, s2, s3]
  · intro m1 m2 r3 d h1 hm1 h2 hm2 h3 hp3
    have s1 : analyze_image jload delay out =
        ((analyzeAux jload delay out 2 2).1,
         .call 1 :: .slept ((2 : ℚ) ^ 1 * delay) ::
           (analyzeAux jload delay out 2 2).2) :=
      analyzeAux_exn_retry h1 hm1 (by decide)
    have s2 : analyzeAux jload delay out 2 2 =
        ((analyzeAux jload delay out 1 3).1,
         .call 2 :: .slept ((2 : ℚ) ^ 2 * delay) ::
           (analyzeAux jload delay out 1 3).2) :=
      analyzeAux_exn_retry h2 hm2 (by decide)
    have s3 : analyzeAux jload delay out 1 3 = (d, [.call 3]) :=
      analyzeAux_ok_success h3 hp3
    rw [s1, s2, s3]
  · intro m h1 hm
    exact analyzeAux_exn_stop h1 (Or.inl hm)
  · intro r1 e1 m h1 hp1 h2 hm
    have s1 : analyze_image jload delay out =
        ((analyzeAux jload delay out 2 2).1,
         .call 1 :: .slept ((2 : ℚ) ^ 1) :: (analyzeAux jload delay out 2 2).2) :=
      analyzeAux_parse_retry h1 hp1 (by decide)
    have s2 : analyzeAux jload delay out 2 2 =
        (error_result (m.take 200), [.call 2]) :=
      analyzeAux_exn_stop h2 (Or.inl hm)
    rw [s1, s2]
  · intro m1 m2 m3 h1 hm1 h2 hm2 h3 hm3
    have s1 : analyze_image jload delay out =
        ((analyzeAux jload delay out 2 2).1,
         .call 1 :: .slept ((2 : ℚ) ^ 1 * delay) ::
           (analyzeAux jload delay out 2 2).2) :=
      analyzeAux_exn_retry h1 hm1 (by decide)
    have s2 : analyzeAux jload delay out 2 2 =
        ((analyzeAux jload delay out 1 3).1,
         .call 2 :: .slept ((2 : ℚ) ^ 2 * delay) ::
           (analyzeAux jload delay out 1 3).2) :=
      analyzeAux_exn_retry h2 hm2 (by decide)
    have s3 : analyzeAux jload delay out 1 3 =
        (error_result (m3.take 200), [.call 3]) :=
      analyzeAux_exn_stop h3 (Or.inr (by decide))
    rw [s1, s2, s3]

/-- Witness for retry_policy: a concrete non-retryable exception on the first
attempt short-circuits to the sentinel after a single call. -/
theorem retry_policy_witness :
    analyze_image (fun _ => .error "bad".data) 1
        (fun _ => .apiExn "invalid api key".data) =
      (error_result (("invalid api key".data).take 200), [.call 1]) :=
  (retry_policy (fun _ => .error "bad".data) 1
      (fun _ => .apiExn "invalid api key".data)).2.2.2.1
    "invalid api key".data rfl (by decide)

/-! Helper lemmas about the batch loop and the store. -/

theorem process_images_none (jload : Str → Except Str PyJson) (delay : ℚ)
    (out : FileEnt → Nat → Outcome) (store : Store) :
    process_images jload delay out none store = ⟨.dirNotFound, store, 0⟩ := rfl

theorem process_images_noImages {jload : Str → Except Str PyJson} {delay : ℚ}
    {out : FileEnt → Nat → Outcome} {entries : List FileEnt} {store : Store}
    (h : (scanImages entries).isEmpty = true) :
    process_images jload delay out (some entries) store =
      ⟨.noImages, store, 0⟩ := by
  simp [process_images, h]

theorem process_images_nothingNew {jload : Str → Except Str PyJson} {delay : ℚ}
    {out : FileEnt → Nat → Outcome} {entries : List FileEnt} {store : Store}
    (h : (scanImages entries).isEmpty = false)
    (ht : (toProcessList entries store).isEmpty = true) :
    process_images jload delay out (some entries) store =
      ⟨.nothingNew, store, 0⟩ := by
  simp [process_images, h, ht]

theorem process_images_run {jload : Str → Except Str PyJson} {delay : ℚ}
    {out : FileEnt → Nat → Outcome} {entries : List FileEnt} {store : Store}
    (h : (scanImages entries).isEmpty = false)
    (ht : (toProcessList entries store).isEmpty = false) :
    process_images jload delay out (some entries) store =
      ⟨if (runLoop jload delay out (toProcessList entries store)).2.2 then
          .aborted else .completed,
       some ((if (store.getD []).isEmpty then [LRow.header] else store.getD []) ++
         (runLoop jload delay out (toProcessList entries store)).1),
       (runLoop jload delay out (toProcessList entries store)).2.1⟩ := by
  simp [process_images, h, ht]

theorem scan_nonempty_of_todo {entries : List FileEnt} {store : Store}
    (ht : (toProcessList entries store).isEmpty = false) :
    (scanImages entries).isEmpty = false := by
  rcases hs : scanImages entries with _ | ⟨f, fs⟩
  · rw [List.isEmpty_eq_false] at ht
    exact absurd (by simp [toProcessList, hs]) ht
  · simp

theorem runLoop_decodable {jload : Str → Except Str PyJson} {delay : ℚ}
    {out : FileEnt → Nat → Outcome} :
    ∀ {files : List FileEnt}, (∀ f ∈ files, f.img ≠ none) →
      (runLoop jload delay out files).2.2 = false ∧
      rowFilenames (runLoop jload delay out files).1 = files.map FileEnt.name := by
  intro files
  induction files with
  | nil => intro _; simp [runLoop, rowFilenames]
  | cons f fs ih =>
    intro hdec
    rcases hf : f.img with _ | wh
    · exact absurd hf (hdec f (by simp))
    · have ihr := ih (fun g hg => hdec g (by simp [hg]))
      rcases wh with ⟨w, h⟩
      simp only [runLoop, hf]
      constructor
      · exact ihr.1
      · simp only [rowFilenames, List.filterMap, List.map] at *
        rw [ihr.2]

theorem countHeader_runLoop (jload : Str → Except Str PyJson) (delay : ℚ)
    (out : FileEnt → Nat → Outcome) :
    ∀ (files : List FileEnt), countHeader (runLoop jload delay out files).1 = 0 := by
  intro files
  induction files with
  | nil => rfl
  | cons f fs ih =>
    rcases hf : f.img with _ | ⟨w, h⟩
    · simp [runLoop, hf, countHeader]
    · simp only [runLoop, hf, countHeader, List.countP_cons]
      simpa [countHeader] using ih

theorem mem_load_existing {rows : List LRow} {name : Str}
    (hmem : name ∈ rowFilenames rows) (hne : name.isEmpty = false)
    (b0 : LRow) (bs : List LRow) :
    name ∈ load_existing_results (some (b0 :: (bs ++ rows))) := by
  rw [rowFilenames, List.mem_filterMap] at hmem
  obtain ⟨r, hr, hfn⟩ := hmem
  rcases r with _ | rd
  · exact absurd hfn (by simp)
  · simp only [Option.some_inj] at hfn
    subst hfn
    simp only [load_existing_results, List.mem_filterMap]
    refine ⟨.data rd, List.mem_append_right bs hr, ?_⟩
    simp [hne]

theorem not_mem_toProcess {store : Store} {name : Str}
    (hdone : name ∈ load_existing_results store) :
    ∀ (entries : List FileEnt) (g : FileEnt),
      g ∈ toProcessList entries store → g.name ≠ name := by
  intro entries g hg
  rw [toProcessList, List.mem_filter] at hg
  intro hEq
  rw [hEq] at hg
  have : (load_existing_results store).contains name = true := by
    simp [List.contains, hdone]
  simp [this] at hg
  exact hg.2 hdone

/-! Claim C4: terminal failures and the sentinel record. -/

theorem analyze_parse_exhaust {jload : Str → Except Str PyJson} {delay : ℚ}
    {out : Nat → Outcome} {r1 r2 r3 e1 e2 e3 : Str}
    (h1 : out 1 = .apiOk r1)
    (hp1 : parseAttempt jload r1 = .error (.jsonErr e1))
    (h2 : out 2 = .apiOk r2)
    (hp2 : parseAttempt jload r2 = .error (.jsonErr e2))
    (h3 : out 3 = .apiOk r3)
    (hp3 : parseAttempt jload r3 = .error (.jsonErr e3)) :
    analyze_image jload delay out =
      (error_result ("JSON parse error: ".data ++ e3),
       [.call 1, .slept ((2 : ℚ) ^ 1), .call 2, .slept ((2 : ℚ) ^ 2),
        .call 3]) := by
  have s1 : analyze_image jload delay out =
      ((analyzeAux jload delay out 2 2).1,
       .call 1 :: .slept ((2 : ℚ) ^ 1) :: (analyzeAux jload delay out 2 2).2) :=
    analyzeAux_parse_retry h1 hp1 (by decide)
  have s2 : analyzeAux jload delay out 2 2 =
      ((analyzeAux jload delay out 1 3).1,
       .call 2 :: .slept ((2 : ℚ) ^ 2) :: (analyzeAux jload delay out 1 3).2) :=
    analyzeAux_parse_retry h2 hp2 (by decide)
  have s3 : analyzeAux jload delay out 1 3 =
      (error_result ("JSON parse error: ".data ++ e3), [.call 3]) :=
    analyzeAux_parse_last h3 hp3 (by decide)
  rw [s1, s2, s3]

theorem longLen_error_result (d : Str) :
    longLenOf (error_result d) = 11 + d.length := by
  show ("API error: ".data ++ d).length = 11 + d.length
  rw [List.length_append]
  rfl

/-- Claim C4 as stated is false: the error detail surfaced in the sentinel
record is not always truncated to a bounded length. When the retries are
exhausted by parse failures, the parse-error text is embedded untruncated,
so no bound covers all error details. -/
theorem sentinel_truncation_counterexample :
    ¬ ∃ B : Nat, ∀ e : Str,
        longLenOf (analyze_image (fun _ => Except.error e) 1
          (fun _ => .apiOk "x".data)).1 ≤ B := by
  rintro ⟨B, hB⟩
  have hB' := hB (List.replicate (B + 1) 'x')
  have hp : parseAttempt (fun _ => Except.error (List.replicate (B + 1) 'x'))
      "x".data = .error (.jsonErr (List.replicate (B + 1) 'x')) := rfl
  have hrun := @analyze_parse_exhaust
    (fun _ => Except.error (List.replicate (B + 1) 'x')) 1
    (fun _ => .apiOk "x".data) "x".data "x".data "x".data
    (List.replicate (B + 1) 'x') (List.replicate (B + 1) 'x')
    (List.replicate (B + 1) 'x') rfl hp rfl hp rfl hp
  rw [hrun] at hB'
  rw [longLen_error_result] at hB'
  rw [List.length_append, List.length_replicate] at hB'
  have h18 : ("JSON parse error: ".data).length = 18 := rfl
  omega

/-- Claim C4 (amended): whenever analysis terminally fails (retries exhausted
or a non-retryable error), analyze_image returns — never raises — the
sentinel record: short description the fixed "Error analyzing image" marker,
tags the fixed "error, failed_analysis" pair, long description "API error: "
followed by the detail, where the detail is truncated to 200 characters for
API exceptions but is the untruncated parse-error text when parse retries
were exhausted; the record is appended to the ledger like a successful
record, so a subsequent resume skips that filename. -/
theorem sentinel_error_record (jload : Str → Except Str PyJson) (delay : ℚ)
    (out : Nat → Outcome) (outF : FileEnt → Nat → Outcome) :
    (∀ r1 r2 r3 e1 e2 e3,
      out 1 = .apiOk r1 → parseAttempt jload r1 = .error (.jsonErr e1) →
      out 2 = .apiOk r2 → parseAttempt jload r2 = .error (.jsonErr e2) →
      out 3 = .apiOk r3 → parseAttempt jload r3 = .error (.jsonErr e3) →
      (analyze_image jload delay out).1 =
          error_result ("JSON parse error: ".data ++ e3) ∧
        pyLookup (analyze_image jload delay out).1 kShort =
          some (.str "Error analyzing image".data) ∧
        pyLookup (analyze_image jload delay out).1 kTags =
          some (.str "error, failed_analysis".data)) ∧
    (∀ m1 m2 m3,
      out 1 = .apiExn m1 → retryable m1 = true →
      out 2 = .apiExn m2 → retryable m2 = true →
      out 3 = .apiExn m3 → retryable m3 = true →
      (analyze_image jload delay out).1 = error_result (m3.take 200) ∧
        (m3.take 200).length ≤ 200) ∧
    (∀ m, out 1 = .apiExn m → retryable m = false →
      (analyze_image jload delay out).1 = error_result (m.take 200) ∧
        (m.take 200).length ≤ 200) ∧
    (∀ entries store f,
      f ∈ toProcessList entries store →
      (∀ g ∈ toProcessList entries store, g.img ≠ none) →
      f.name.isEmpty = false →
      f.name ∈ load_existing_results
          (process_images jload delay outF (some entries) store).store ∧
        (∀ entries2 g,
          g ∈ toProcessList entries2
            (process_images jload delay outF (some entries) store).store →
          g.name ≠ f.name)) := by
  refine ⟨?_, ?_, ?_, ?_⟩
  · intro r1 r2 r3 e1 e2 e3 h1 hp1 h2 hp2 h3 hp3
    rw [analyze_parse_exhaust h1 hp1 h2 hp2 h3 hp3]
    exact ⟨rfl, rfl, rfl⟩
  · intro m1 m2 m3 h1 hm1 h2 hm2 h3 hm3
    have s1 : analyze_image jload delay out =
        ((analyzeAux jload delay out 2 2).1,
         .call 1 :: .slept ((2 : ℚ) ^ 1 * delay) ::
           (analyzeAux jload delay out 2 2).2) :=
      analyzeAux_exn_retry h1 hm1 (by decide)
    have s2 : analyzeAux jload delay out 2 2 =
        ((analyzeAux jload delay out 1 3).1,
         .call 2 :: .slept ((2 : ℚ) ^ 2 * delay) ::
           (analyzeAux jload delay out 1 3).2) :=
      analyzeAux_exn_retry h2 hm2 (by decide)
    have s3 : analyzeAux jload delay out 1 3 =
        (error_result (m3.take 200), [.call 3]) :=
      analyzeAux_exn_stop h3 (Or.inr (by decide))
    rw [s1, s2, s3]
    exact ⟨rfl, List.length_take_le 200 m3⟩
  · intro m h1 hm
    have s : analyze_image jload delay out =
        (error_result (m.take 200), [.call 1]) :=
      analyzeAux_exn_stop h1 (Or.inl hm)
    rw [s]
    exact ⟨rfl, List.length_take_le 200 m⟩
  · intro entries store f hf hdec hname
    have ht : (toProcessList entries store).isEmpty = false := by
      rw [List.isEmpty_eq_false]
      intro hnil
      rw [hnil] at hf
      exact absurd hf (List.not_mem_nil f)
    have hs := scan_nonempty_of_todo ht
    rw [process_images_run hs ht]
    have hloop :=
      @runLoop_decodable jload delay outF (toProcessList entries store) hdec
    have hmem : f.name ∈
        rowFilenames (runLoop jload delay outF (toProcessList entries store)).1 := by
      rw [hloop.2, List.mem_map]
      exact ⟨f, hf, rfl⟩
    set base : List LRow :=
      if (store.getD []).isEmpty then [LRow.header] else store.getD [] with hbase
    have hbase_ne : base ≠ [] := by
      rw [hbase]
      split
      · simp
      · rw [← List.isEmpty_eq_false]
        simp_all
    obtain ⟨b0, bs, hb⟩ := List.exists_cons_of_ne_nil hbase_ne
    have hin : f.name ∈ load_existing_results
        (some (base ++ (runLoop jload delay outF (toProcessList entries store)).1)) := by
      rw [hb, List.cons_append]
      exact mem_load_existing hmem hname b0 bs
    exact ⟨hin, fun entries2 g hg => not_mem_toProcess hin entries2 g hg⟩

/-- Witness for sentinel_error_record: a concrete terminally failed analysis
yields the sentinel, and the file just processed is skipped by the next
resume filter. -/
theorem sentinel_error_record_witness :
    ((analyze_image (fun _ => .error "bad".data) 1
        (fun _ => .apiExn "auth failed".data)).1 =
      error_result (("auth failed".data).take 200) ∧
      (("auth failed".data).take 200).length ≤ 200) ∧
    ("a.png".data ∈ load_existing_results
        (process_images (fun _ => .error "bad".data) 1
          (fun _ _ => .apiExn "auth failed".data)
          (some [⟨"a.png".data, some (2, 3)⟩]) none).store ∧
      ∀ g, g ∈ toProcessList [⟨"a.png".data, some (2, 3)⟩]
          (process_images (fun _ => .error "bad".data) 1
            (fun _ _ => .apiExn "auth failed".data)
            (some [⟨"a.png".data, some (2, 3)⟩]) none).store →
        g.name ≠ "a.png".data) := by
  have h := sentinel_error_record (fun _ => .error "bad".data) 1
    (fun _ => .apiExn "auth failed".data)
    (fun _ _ => .apiExn "auth failed".data)
  refine ⟨h.2.2.1 "auth failed".data rfl (by decide), ?_⟩
  have h4 := h.2.2.2 [⟨"a.png".data, some (2, 3)⟩] none ⟨"a.png".data, some (2, 3)⟩
    (by decide) (by decide) (by decide)
  exact ⟨h4.1, fun g hg => h4.2 [⟨"a.png".data, some (2, 3)⟩] g hg⟩

/-- Claim C1: for every directory D and output ledger O, if every scanned
filename of D is already a key of O (as after a completed full run),
re-running the batch performs zero API calls because the resume filter
yields the empty work list; more generally, for every filename already
present in O, the resume filter never selects it, regardless of the
corresponding file's content (the filter consults only the name). -/
theorem resume_idempotence (jload : Str → Except Str PyJson) (delay : ℚ)
    (out : FileEnt → Nat → Outcome) (entries : List FileEnt) (store : Store) :
    ((∀ f ∈ scanImages entries, f.name ∈ load_existing_results store) →
      toProcessList entries store = [] ∧
      (process_images jload delay out (some entries) store).apiCalls = 0 ∧
      (process_images jload delay out (some entries) store).store = store) ∧
    (∀ name ∈ load_existing_results store,
      ∀ f ∈ toProcessList entries store, f.name ≠ name) := by
  constructor
  · intro hall
    have htodo : toProcessList entries store = [] := by
      rw [toProcessList, List.filter_eq_nil_iff]
      intro f hf
      simp [List.contains, hall f hf]
    refine ⟨htodo, ?_⟩
    by_cases hscan : (scanImages entries).isEmpty
    · rw [process_images_noImages hscan]
      exact ⟨rfl, rfl⟩
    · have hs' : (scanImages entries).isEmpty = false := by simpa using hscan
      have ht : (toProcessList entries store).isEmpty = true := by simp [htodo]
      rw [process_images_nothingNew hs' ht]
      exact ⟨rfl, rfl⟩
  · intro name hname f hf
    exact not_mem_toProcess hname entries f hf

/-- Witness for resume_idempotence: a store that already lists the only
scanned file makes the re-run do nothing. -/
theorem resume_idempotence_witness :
    toProcessList [⟨"a.png".data, some (1, 2)⟩]
        (some [LRow.header,
          LRow.data ⟨"a.png".data, .null, .null, .null, "portrait".data⟩]) = [] ∧
    (process_images (fun _ => Except.error "x".data) 1
        (fun _ _ => .apiExn "x".data) (some [⟨"a.png".data, some (1, 2)⟩])
        (some [LRow.header,
          LRow.data ⟨"a.png".data, .null, .null, .null, "portrait".data⟩])).apiCalls
      = 0 ∧
    (process_images (fun _ => Except.error "x".data) 1
        (fun _ _ => .apiExn "x".data) (some [⟨"a.png".data, some (1, 2)⟩])
        (some [LRow.header,
          LRow.data ⟨"a.png".data, .null, .null, .null, "portrait".data⟩])).store
      = some [LRow.header,
          LRow.data ⟨"a.png".data, .null, .null, .null, "portrait".data⟩] :=
  (resume_idempotence (fun _ => Except.error "x".data) 1
      (fun _ _ => .apiExn "x".data) [⟨"a.png".data, some (1, 2)⟩]
      (some [LRow.header,
        LRow.data ⟨"a.png".data, .null, .null, .null, "portrait".data⟩])).1
    (by decide)

/-- Claim C2 is contradicted by the code: a single file whose image cannot
be decoded aborts the whole batch. Here the directory holds an undecodable
"bad.png" followed by a decodable "good.png"; the run ends aborted, only the
header was written, no API call was made, and "good.png" was never processed
or recorded. -/
theorem decode_failure_aborts_batch :
    process_images (fun _ => Except.error "e".data) 0
        (fun _ _ => .apiExn "x".data)
        (some [⟨"bad.png".data, none⟩, ⟨"good.png".data, some (800, 600)⟩])
        none =
      ⟨.aborted, some [LRow.header], 0⟩ ∧
    load_existing_results (some [LRow.header]) = [] := ⟨rfl, rfl⟩

/-! Claim C5: header uniqueness. -/

theorem reachable_store_shape :
    ∀ s : Store, ReachableStore s →
      s = none ∨ ∃ rs, s = some (LRow.header :: rs) ∧ countHeader rs = 0 := by
  intro s h
  induction h with
  | init => exact Or.inl rfl
  | step jload delay out dir s0 _ ih =>
    rcases dir with _ | entries
    · rw [process_images_none]
      exact ih
    · by_cases hscan : (scanImages entries).isEmpty
      · rw [process_images_noImages hscan]
        exact ih
      · have hs' : (scanImages entries).isEmpty = false := by simpa using hscan
        by_cases ht : (toProcessList entries s0).isEmpty
        · rw [process_images_nothingNew hs' ht]
          exact ih
        · have ht' : (toProcessList entries s0).isEmpty = false := by
            simpa using ht
          rw [process_images_run hs' ht']
          right
          rcases ih with rfl | ⟨rs, rfl, hcnt⟩
          · refine ⟨(runLoop jload delay out (toProcessList entries none)).1,
              ?_, countHeader_runLoop jload delay out _⟩
            simp
          · refine ⟨rs ++
              (runLoop jload delay out
                (toProcessList entries (some (LRow.header :: rs)))).1, ?_, ?_⟩
            · simp
            · rw [countHeader, List.countP_append]
              have h2 := countHeader_runLoop jload delay out
                (toProcessList entries (some (LRow.header :: rs)))
              rw [countHeader] at hcnt h2
              omega

/-- Claim C5: for every run, exactly one header row is written when the
output store does not yet exist or has zero prior bytes (and the run reaches
the writing phase), and zero additional header rows are written when the
output store already has content; hence every output store this program
ever produces contains the header exactly once, as its first row. -/
theorem header_uniqueness (jload : Str → Except Str PyJson) (delay : ℚ)
    (out : FileEnt → Nat → Outcome) (dir : Option (List FileEnt))
    (entries : List FileEnt) (store : Store) :
    ((store.getD []).isEmpty = false →
      countHeader ((process_images jload delay out dir store).store.getD []) =
        countHeader (store.getD [])) ∧
    ((toProcessList entries store).isEmpty = false →
      (store.getD []).isEmpty = true →
      ∃ ds, (process_images jload delay out (some entries) store).store =
          some (LRow.header :: ds) ∧ countHeader ds = 0) ∧
    (∀ s, ReachableStore s →
      s = none ∨ ∃ rs, s = some (LRow.header :: rs) ∧ countHeader rs = 0) := by
  refine ⟨?_, ?_, reachable_store_shape⟩
  · intro hfull
    rcases dir with _ | ents
    · rw [process_images_none]
    · by_cases hscan : (scanImages ents).isEmpty
      · rw [process_images_noImages hscan]
      · have hs' : (scanImages ents).isEmpty = false := by simpa using hscan
        by_cases ht : (toProcessList ents store).isEmpty
        · rw [process_images_nothingNew hs' ht]
        · have ht' : (toProcessList ents store).isEmpty = false := by
            simpa using ht
          rw [process_images_run hs' ht']
          simp only [hfull, Bool.false_eq_true, if_false, Option.getD_some]
          rw [countHeader, List.countP_append]
          have h2 := countHeader_runLoop jload delay out (toProcessList ents store)
          rw [countHeader] at h2
          rw [countHeader]
          omega
  · intro ht hempty
    have hs' := scan_nonempty_of_todo ht
    rw [process_images_run hs' ht]
    refine ⟨(runLoop jload delay out (toProcessList entries store)).1,
      ?_, countHeader_runLoop jload delay out _⟩
    simp [hempty]

/-- Witness for header_uniqueness: a first run over one image on a
non-existent store writes the header exactly once, in front. -/
theorem header_uniqueness_witness :
    ∃ ds,
      (process_images (fun _ => Except.error "x".data) 1
          (fun _ _ => .apiExn "x".data)
          (some [⟨"a.png".data, some (1, 2)⟩]) none).store =
        some (LRow.header :: ds) ∧ countHeader ds = 0 :=
  (header_uniqueness (fun _ => Except.error "x".data) 1
      (fun _ _ => .apiExn "x".data) (some [⟨"a.png".data, some (1, 2)⟩])
      [⟨"a.png".data, some (1, 2)⟩] none).2.1 (by decide) rfl

/-- Claim C7: given a directory path, the scanner returns exactly those
files whose extension, compared case-insensitively, lies in the fixed set
of .jpg, .jpeg, .png, .gif, .webp, sorted by filename; it fails with
DirectoryNotFound (aborting before any work) when the path does not exist;
and an empty result when no supported files are present is signalled as
"nothing to do" (a distinct, non-error outcome), not as an error. -/
theorem directory_scanner_contract (jload : Str → Except Str PyJson)
    (delay : ℚ) (out : FileEnt → Nat → Outcome) (store : Store)
    (entries : List FileEnt) :
    process_images jload delay out none store = ⟨.dirNotFound, store, 0⟩ ∧
    (scanImages entries).Perm
      (entries.filter
        (fun f => SUPPORTED_EXTENSIONS.contains (pyLower (pySuffix f.name)))) ∧
    (∀ f, f ∈ scanImages entries ↔
      f ∈ entries ∧ pyLower (pySuffix f.name) ∈ SUPPORTED_EXTENSIONS) ∧
    List.Sorted nameLe (scanImages entries) ∧
    ((scanImages entries).isEmpty = true →
      process_images jload delay out (some entries) store =
        ⟨.noImages, store, 0⟩) := by
  refine ⟨rfl, List.perm_insertionSort _ _, ?_,
    List.sorted_insertionSort _ _, fun h => process_images_noImages h⟩
  intro f
  rw [scanImages, (List.perm_insertionSort nameLe _).mem_iff, List.mem_filter]
  simp [List.contains]

/-- Witness for directory_scanner_contract: a directory with no supported
files ends as the nothing-to-do outcome with the store untouched. -/
theorem directory_scanner_contract_witness :
    process_images (fun _ => Except.error "x".data) 1
        (fun _ _ => .apiExn "x".data) (some [⟨"notes.txt".data, none⟩]) none =
      ⟨.noImages, none, 0⟩ :=
  (directory_scanner_contract (fun _ => Except.error "x".data) 1
      (fun _ _ => .apiExn "x".data) none [⟨"notes.txt".data, none⟩]).2.2.2.2
    (by decide)

/-! Claim C8: code-fence stripping round trip. -/

theorem pyStrip_eq_self {s : Str}
    (h1 : s.dropWhile isPySpace = s)
    (h2 : s.reverse.dropWhile isPySpace = s.reverse) : pyStrip s = s := by
  rw [pyStrip, h1, h2, List.reverse_reverse]

theorem splitNl1_append {hdr : Str} (hnl : '\n' ∉ hdr) (rest : Str) :
    splitNl1 (hdr ++ '\n' :: rest) = some (hdr, rest) := by
  induction hdr with
  | nil => simp [splitNl1]
  | cons c cs ih =>
    have hc : ¬ c = '\n' := fun h => hnl (by simp [h])
    have ih' := ih (fun h => hnl (List.mem_cons_of_mem c h))
    simp [splitNl1, hc, ih']

theorem pyRsplitBefore_fence (t : Str) :
    pyRsplitBefore "```".data (t ++ '\n' :: "```".data) = t ++ ['\n'] := by
  have hbq : "```".data = btChar :: btChar :: btChar :: [] := rfl
  have hsrev : (t ++ '\n' :: "```".data).reverse =
      btChar :: btChar :: btChar :: '\n' :: t.reverse := by
    rw [hbq]
    simp
  have hstep : dropThroughFirst ("```".data).reverse
      ((t ++ '\n' :: "```".data).reverse) = some ('\n' :: t.reverse) := by
    rw [hsrev]
    have hrev : ("```".data).reverse = btChar :: btChar :: btChar :: [] := rfl
    rw [hrev, dropThroughFirst]
    simp [List.isPrefixOf]
  rw [pyRsplitBefore, hstep]
  simp

theorem pyStrip_append_newline (t : Str) :
    pyStrip (t ++ ['\n']) = pyStrip t := by
  rw [pyStrip, pyStrip, List.dropWhile_append]
  by_cases h : (t.dropWhile isPySpace).isEmpty
  · rw [if_pos h]
    rw [List.isEmpty_iff] at h
    rw [h]
    simp [List.dropWhile]
  · rw [if_neg h]
    rw [List.reverse_append]
    simp only [List.reverse_cons, List.reverse_nil, List.nil_append,
      List.singleton_append]
    have : isPySpace '\n' = true := by decide
    simp [List.dropWhile, this]

theorem analyzeAux_apiOk_congr {jload : Str → Except Str PyJson} {delay : ℚ}
    {w t : Str} (hpa : parseAttempt jload w = parseAttempt jload t) :
    ∀ fuel a, analyzeAux jload delay (fun _ => .apiOk w) fuel a =
      analyzeAux jload delay (fun _ => .apiOk t) fuel a := by
  intro fuel
  induction fuel with
  | zero => intro a; rfl
  | succ n ih =>
    intro a
    simp only [analyzeAux]
    rw [hpa]
    cases hp : parseAttempt jload t with
    | ok d => rfl
    | error e =>
      cases e with
      | jsonErr e => simp [ih]
      | otherErr m => simp [exnStep, ih]

/-- Claim C8: for every JSON text t (any text whose stripped form does not
itself begin with a code fence), if the API response is t wrapped in
code-fence markup (a fence line starting with three backticks and holding
no newline, the body, and a closing fence), then analyze_image parses it to
exactly the same structured triple as the unwrapped response t. -/
theorem code_fence_round_trip (jload : Str → Except Str PyJson) (delay : ℚ)
    (hdr t : Str)
    (hpre : ("```".data).isPrefixOf hdr = true)
    (hnl : '\n' ∉ hdr)
    (hts : ("```".data).isPrefixOf (pyStrip t) = false) :
    extractPayload (hdr ++ '\n' :: (t ++ '\n' :: "```".data)) =
      extractPayload t ∧
    parseAttempt jload (hdr ++ '\n' :: (t ++ '\n' :: "```".data)) =
      parseAttempt jload t ∧
    analyze_image jload delay
        (fun _ => .apiOk (hdr ++ '\n' :: (t ++ '\n' :: "```".data))) =
      analyze_image jload delay (fun _ => .apiOk t) := by
  obtain ⟨hs, rfl⟩ : ∃ hs, hdr = "```".data ++ hs := by
    rw [List.isPrefixOf_iff_prefix] at hpre
    obtain ⟨u, hu⟩ := hpre
    exact ⟨u, hu.symm⟩
  have hbq : "```".data = btChar :: btChar :: btChar :: [] := rfl
  have hspb : isPySpace btChar = false := by decide
  have hstrip : pyStrip (("```".data ++ hs) ++ '\n' :: (t ++ '\n' :: "```".data)) =
      ("```".data ++ hs) ++ '\n' :: (t ++ '\n' :: "```".data) := by
    apply pyStrip_eq_self
    · rw [hbq]
      simp [List.dropWhile, hspb]
    · rw [hbq]
      simp [List.reverse_append, List.dropWhile, hspb]
  have hprefW : ("```".data).isPrefixOf
      (("```".data ++ hs) ++ '\n' :: (t ++ '\n' :: "```".data)) = true := by
    rw [List.isPrefixOf_iff_prefix]
    exact (List.prefix_append "```".data hs).trans (List.prefix_append _ _)
  have hsplit : splitNl1 (("```".data ++ hs) ++ '\n' :: (t ++ '\n' :: "```".data)) =
      some ("```".data ++ hs, t ++ '\n' :: "```".data) :=
    splitNl1_append hnl _
  have hout : extractPayload (("```".data ++ hs) ++ '\n' :: (t ++ '\n' :: "```".data)) =
      .ok (pyStrip t) := by
    rw [extractPayload, hstrip, hprefW, if_pos rfl, hsplit]
    show Except.ok (pyStrip (pyRsplitBefore "```".data (t ++ '\n' :: "```".data))) =
      Except.ok (pyStrip t)
    rw [pyRsplitBefore_fence, pyStrip_append_newline]
  have hout2 : extractPayload t = .ok (pyStrip t) := by
    rw [extractPayload, hts]
    simp
  refine ⟨hout.trans hout2.symm, ?_, ?_⟩
  · rw [parseAttempt, parseAttempt, hout, hout2]
  · exact analyzeAux_apiOk_congr
      (by rw [parseAttempt, parseAttempt, hout, hout2]) MAX_RETRIES 1

/-- Witness for code_fence_round_trip: a concrete json-fenced response
parses like the bare text. -/
theorem code_fence_round_trip_witness :
    extractPayload ("```json".data ++ '\n' :: ("null".data ++ '\n' :: "```".data)) =
      extractPayload "null".data ∧
    parseAttempt (fun _ => Except.error "x".data)
        ("```json".data ++ '\n' :: ("null".data ++ '\n' :: "```".data)) =
      parseAttempt (fun _ => Except.error "x".data) "null".data ∧
    analyze_image (fun _ => Except.error "x".data) 1
        (fun _ => .apiOk ("```json".data ++ '\n' :: ("null".data ++ '\n' :: "```".data))) =
      analyze_image (fun _ => Except.error "x".data) 1
        (fun _ => .apiOk "null".data) :=
  code_fence_round_trip (fun _ => Except.error "x".data) 1 "```json".data
    "null".data (by decide) (by decide) (by decide)

/-! Claim C9: the legacy text-section parser. -/

theorem noMarker_parts {l : Str} (hm : noMarker l = true) :
    mark1 l = false ∧ mark2 l = false ∧ mark3 l = false := by
  rw [noMarker] at hm
  simp only [Bool.not_eq_true', Bool.or_eq_false_iff] at hm
  exact ⟨hm.1.1, hm.1.2, hm.2⟩

theorem sectStep_sect1_empty {st : SectState} {l : Str}
    (hm : noMarker l = true) (hsect : st.sect = 1)
    (he : st.short.isEmpty = true) :
    sectStep st l = { st with short := pyStrip l } := by
  obtain ⟨h1, h2, h3⟩ := noMarker_parts hm
  simp [sectStep, h1, h2, h3, hsect, he]

theorem sectStep_sect1_frozen {st : SectState} {l : Str}
    (hm : noMarker l = true) (hsect : st.sect = 1)
    (he : st.short.isEmpty = false) :
    sectStep st l = st := by
  obtain ⟨h1, h2, h3⟩ := noMarker_parts hm
  simp [sectStep, h1, h2, h3, hsect, he]

theorem sectStep_sect2_empty {st : SectState} {l : Str}
    (hm : noMarker l = true) (hsect : st.sect = 2)
    (he : st.long.isEmpty = true) :
    sectStep st l = { st with long := pyStrip l } := by
  obtain ⟨h1, h2, h3⟩ := noMarker_parts hm
  simp [sectStep, h1, h2, h3, hsect, he]

theorem sectStep_sect2_cons {st : SectState} {l : Str}
    (hm : noMarker l = true) (hsect : st.sect = 2)
    (he : st.long.isEmpty = false) :
    sectStep st l = { st with long := st.long ++ ' ' :: pyStrip l } := by
  obtain ⟨h1, h2, h3⟩ := noMarker_parts hm
  simp [sectStep, h1, h2, h3, hsect, he]

theorem sectStep_sect3_empty {st : SectState} {l : Str}
    (hm : noMarker l = true) (hsect : st.sect = 3)
    (he : st.tags.isEmpty = true) :
    sectStep st l = { st with tags := pyStrip l } := by
  obtain ⟨h1, h2, h3⟩ := noMarker_parts hm
  simp [sectStep, h1, h2, h3, hsect, he]

theorem sectStep_sect3_frozen {st : SectState} {l : Str}
    (hm : noMarker l = true) (hsect : st.sect = 3)
    (he : st.tags.isEmpty = false) :
    sectStep st l = st := by
  obtain ⟨h1, h2, h3⟩ := noMarker_parts hm
  simp [sectStep, h1, h2, h3, hsect, he]

theorem foldl_sect1_frozen :
    ∀ (cs : List Str) (st : SectState), st.sect = 1 →
      st.short.isEmpty = false → (∀ l ∈ cs, noMarker l = true) →
      List.foldl sectStep st cs = st := by
  intro cs
  induction cs with
  | nil => intro st _ _ _; rfl
  | cons c cs ih =>
    intro st hsect he hall
    rw [List.foldl_cons, sectStep_sect1_frozen (hall c (by simp)) hsect he]
    exact ih st hsect he (fun l hl => hall l (by simp [hl]))

theorem foldl_sect3_frozen :
    ∀ (cs : List Str) (st : SectState), st.sect = 3 →
      st.tags.isEmpty = false → (∀ l ∈ cs, noMarker l = true) →
      List.foldl sectStep st cs = st := by
  intro cs
  induction cs with
  | nil => intro st _ _ _; rfl
  | cons c cs ih =>
    intro st hsect he hall
    rw [List.foldl_cons, sectStep_sect3_frozen (hall c (by simp)) hsect he]
    exact ih st hsect he (fun l hl => hall l (by simp [hl]))

theorem foldl_sect2_accum :
    ∀ (cs : List Str) (st : SectState), st.sect = 2 →
      st.long.isEmpty = false → (∀ l ∈ cs, noMarker l = true) →
      List.foldl sectStep st cs =
        { st with long := st.long ++ (cs.map (fun l => ' ' :: pyStrip l)).flatten } := by
  intro cs
  induction cs with
  | nil => intro st _ _ _; simp
  | cons c cs ih =>
    intro st hsect he hall
    rw [List.foldl_cons, sectStep_sect2_cons (hall c (by simp)) hsect he]
    have hne : ({ st with long := st.long ++ ' ' :: pyStrip c } : SectState).long.isEmpty
        = false := by
      rw [List.isEmpty_eq_false]
      simp
    rw [ih _ (by simp [hsect]) hne (fun l hl => hall l (by simp [hl]))]
    simp [List.append_assoc]

/-- Claim C9 as stated is false: in the short-description section (and
likewise the tags section) only the first continuation line is taken; a
second continuation line is dropped, not accumulated. With the lines
"1.", "a", "b", the final short description is "a" and "b" appears
nowhere. -/
theorem fallback_section_counterexample : ¬ c9Claim := by
  intro h
  have h2 := (h ["a".data, "b".data] (by decide)).1 "b".data (by decide)
  exact absurd h2 (by decide)

/-- Claim C9 (amended): after a section marker, continuation lines are
accumulated only for the long-description section (every line, joined with
single spaces, until the next marker); the short-description and tags
sections keep just the first continuation line (when their field is still
empty and that line strips to non-empty text), and later continuation lines
of those sections are dropped. -/
theorem fallback_section_accumulation :
    (∀ c cs, (∀ l ∈ c :: cs, noMarker l = true) →
      (pyStrip c).isEmpty = false →
      (sectParse ("2.".data :: c :: cs)).long =
        pyStrip c ++ (cs.map (fun l => ' ' :: pyStrip l)).flatten) ∧
    (∀ c cs, (∀ l ∈ c :: cs, noMarker l = true) →
      (pyStrip c).isEmpty = false →
      (sectParse ("1.".data :: c :: cs)).short = pyStrip c) ∧
    (∀ c cs, (∀ l ∈ c :: cs, noMarker l = true) →
      (pyStrip c).isEmpty = false →
      (sectParse ("3.".data :: c :: cs)).tags = pyStrip c) := by
  refine ⟨?_, ?_, ?_⟩
  · intro c cs hall hc
    have h0 : sectStep ⟨0, [], [], []⟩ "2.".data = ⟨2, [], [], []⟩ := rfl
    rw [sectParse, List.foldl_cons, h0, List.foldl_cons,
      @sectStep_sect2_empty ⟨2, [], [], []⟩ c (hall c (by simp)) rfl rfl]
    rw [foldl_sect2_accum cs _ rfl (by simpa using hc)
      (fun l hl => hall l (by simp [hl]))]
  · intro c cs hall hc
    have h0 : sectStep ⟨0, [], [], []⟩ "1.".data = ⟨1, [], [], []⟩ := rfl
    rw [sectParse, List.foldl_cons, h0, List.foldl_cons,
      @sectStep_sect1_empty ⟨1, [], [], []⟩ c (hall c (by simp)) rfl rfl]
    rw [foldl_sect1_frozen cs _ rfl (by simpa using hc)
      (fun l hl => hall l (by simp [hl]))]
  · intro c cs hall hc
    have h0 : sectStep ⟨0, [], [], []⟩ "3.".data = ⟨3, [], [], []⟩ := rfl
    rw [sectParse, List.foldl_cons, h0, List.foldl_cons,
      @sectStep_sect3_empty ⟨3, [], [], []⟩ c (hall c (by simp)) rfl rfl]
    rw [foldl_sect3_frozen cs _ rfl (by simpa using hc)
      (fun l hl => hall l (by simp [hl]))]

/-- Witness for fallback_section_accumulation: the long-description section
accumulates both continuation lines, space-joined. -/
theorem fallback_section_accumulation_witness :
    (sectParse ("2.".data :: "a".data :: ["b".data])).long =
      pyStrip "a".data ++ ((["b".data]).map (fun l => ' ' :: pyStrip l)).flatten :=
  fallback_section_accumulation.1 "a".data ["b".data] (by decide) (by decide)

/-! Claim C10: shape of the success record. -/

theorem pyLookup_three_none {a b c : PyJson} {k : Str}
    (h1 : (kShort == k) = false) (h2 : (kLong == k) = false)
    (h3 : (kTags == k) = false) :
    pyLookup [(kShort, a), (kLong, b), (kTags, c)] k = none := by
  simp [pyLookup, List.find?, h1, h2, h3]

/-- Claim C10 (implicit): on a successful attempt, analyze_image always
returns a record with exactly the three keys short_description,
long_description and tags (in that order); if the parsed JSON object lacks
one of those keys, the corresponding field defaults to the empty string
rather than raising or retrying (the trace stays a single call); and any
extra keys of the response are dropped. -/
theorem success_record_shape (jload : Str → Except Str PyJson) (delay : ℚ)
    (out : Nat → Outcome) (raw payload : Str) (fields : List (Str × PyJson))
    (hout : out 1 = .apiOk raw)
    (hex : extractPayload raw = .ok payload)
    (hj : jload payload = .ok (.obj fields)) :
    ∃ d, analyze_image jload delay out = (d, [.call 1]) ∧
      d.map Prod.fst = [kShort, kLong, kTags] ∧
      (∀ k, k ∈ [kShort, kLong, kTags] → pyLookup fields k = none →
        pyLookup d k = some (.str [])) ∧
      (∀ k v, k ∈ [kShort, kLong, kTags] → pyLookup fields k = some v →
        pyLookup d k = some v) ∧
      (∀ k, k ∉ [kShort, kLong, kTags] → pyLookup d k = none) := by
  have hpa : parseAttempt jload raw =
      .ok [(kShort, pyGet fields kShort (.str [])),
           (kLong, pyGet fields kLong (.str [])),
           (kTags, pyGet fields kTags (.str []))] := by
    simp only [parseAttempt, hex, hj]
  have lshort : pyLookup [(kShort, pyGet fields kShort (.str [])),
      (kLong, pyGet fields kLong (.str [])),
      (kTags, pyGet fields kTags (.str []))] kShort =
      some (pyGet fields kShort (.str [])) := rfl
  have llong : pyLookup [(kShort, pyGet fields kShort (.str [])),
      (kLong, pyGet fields kLong (.str [])),
      (kTags, pyGet fields kTags (.str []))] kLong =
      some (pyGet fields kLong (.str [])) := rfl
  have ltags : pyLookup [(kShort, pyGet fields kShort (.str [])),
      (kLong, pyGet fields kLong (.str [])),
      (kTags, pyGet fields kTags (.str []))] kTags =
      some (pyGet fields kTags (.str [])) := rfl
  refine ⟨_, analyzeAux_ok_success hout hpa, rfl, ?_, ?_, ?_⟩
  · intro k hk hnone
    have hk3 : k = kShort ∨ k = kLong ∨ k = kTags := by simpa using hk
    rcases hk3 with rfl | rfl | rfl
    · rw [lshort, pyGet, hnone]
      rfl
    · rw [llong, pyGet, hnone]
      rfl
    · rw [ltags, pyGet, hnone]
      rfl
  · intro k v hk hsome
    have hk3 : k = kShort ∨ k = kLong ∨ k = kTags := by simpa using hk
    rcases hk3 with rfl | rfl | rfl
    · rw [lshort, pyGet, hsome]
      rfl
    · rw [llong, pyGet, hsome]
      rfl
    · rw [ltags, pyGet, hsome]
      rfl
  · intro k hk
    have hk3 : ¬(k = kShort ∨ k = kLong ∨ k = kTags) := by simpa using hk
    push_neg at hk3
    exact pyLookup_three_none
      (beq_eq_false_iff_ne.mpr (fun h => hk3.1 h.symm))
      (beq_eq_false_iff_ne.mpr (fun h => hk3.2.1 h.symm))
      (beq_eq_false_iff_ne.mpr (fun h => hk3.2.2 h.symm))

/-- Witness for success_record_shape: a response whose object has an extra
key and lacks two of the expected keys. -/
theorem success_record_shape_witness :
    ∃ d, analyze_image
        (fun _ => Except.ok (PyJson.obj
          [("extra".data, .num 5), (kShort, .str "hi".data)])) 1
        (fun _ => .apiOk "null".data) = (d, [.call 1]) ∧
      d.map Prod.fst = [kShort, kLong, kTags] ∧
      (∀ k, k ∈ [kShort, kLong, kTags] →
        pyLookup [("extra".data, .num 5), (kShort, .str "hi".data)] k = none →
        pyLookup d k = some (.str [])) ∧
      (∀ k v, k ∈ [kShort, kLong, kTags] →
        pyLookup [("extra".data, .num 5), (kShort, .str "hi".data)] k = some v →
        pyLookup d k = some v) ∧
      (∀ k, k ∉ [kShort, kLong, kTags] → pyLookup d k = none) :=
  success_record_shape
    (fun _ => Except.ok (PyJson.obj
      [("extra".data, .num 5), (kShort, .str "hi".data)])) 1
    (fun _ => .apiOk "null".data) "null".data "null".data
    [("extra".data, .num 5), (kShort, .str "hi".data)] rfl rfl rfl
